import Mathlib

/-!
# Verification of the netkit ARP module (`src/module_arp.py`)

Shallow embedding of the ARP frame codec, the passive monitor's host
registry, and the reply listener's filtering step. Python `bytes` values
are modelled as `List Nat` (each element a byte value 0–255), Python `str`
values as `List Char`. Python exceptions are modelled by an explicit error
type distinguishing the raise site: the four `raise ValueError` sites of
`parse_arp_frame` and the implicit `IndexError` raised by `arp_header[4]` /
`arp_header[5]` when the ARP header bytes run out (a `BytesIO.read` returns
fewer bytes than requested without error; plain indexing then fails).

The helper module `utils` is not part of the source tree; its formatting
and parsing helpers are modelled from the spec (see the doc comment of each
such definition).
-/

namespace Netkit

/-! ## Character-level helpers (modelling Python `str` pieces) -/

/-- The sixteen lowercase hexadecimal digit characters, in value order. -/
def hexDigitChars : List Char :=
  ['0', '1', '2', '3', '4', '5', '6', '7']
    ++ ['8', '9', 'a', 'b', 'c', 'd', 'e', 'f']

/-- The ten decimal digit characters, in value order. -/
def decDigitChars : List Char :=
  ['0', '1', '2', '3', '4'] ++ ['5', '6', '7', '8', '9']

/-- The hexadecimal digit character of a value `0 ≤ n ≤ 15`. -/
def hexChar (n : Nat) : Char := hexDigitChars.getD n '0'

/-- Numeric value of a hexadecimal digit character (`0` on other input). -/
def hexVal (c : Char) : Nat :=
  if c = '0' then 0 else if c = '1' then 1 else if c = '2' then 2
  else if c = '3' then 3 else if c = '4' then 4 else if c = '5' then 5
  else if c = '6' then 6 else if c = '7' then 7 else if c = '8' then 8
  else if c = '9' then 9 else if c = 'a' then 10 else if c = 'b' then 11
  else if c = 'c' then 12 else if c = 'd' then 13 else if c = 'e' then 14
  else if c = 'f' then 15 else 0

/-- Two-lowercase-hex-digit rendering of a byte value, as Python
`format(b, \x7b'02x'\x7d)` renders a byte. -/
def byteToHex (n : Nat) : List Char := [hexChar (n / 16 % 16), hexChar (n % 16)]

/-- Value of a two-character hexadecimal group (`0` on malformed input),
as Python `bytes.fromhex` reads one byte. -/
def parseHexPair : List Char → Nat
  | [a, b] => 16 * hexVal a + hexVal b
  | _ => 0

/-- Decimal rendering of a byte value, as Python `str(b)` renders an
integer `0 ≤ b ≤ 255` (three digits suffice for a byte). -/
def natToDecStr (n : Nat) : List Char :=
  if n < 10 then [hexChar n]
  else if n < 100 then [hexChar (n / 10), hexChar (n % 10)]
  else [hexChar (n / 100), hexChar (n / 10 % 10), hexChar (n % 10)]

/-- Value of a decimal digit string, as Python `int(s)` reads it. -/
def decStrToNat (g : List Char) : Nat :=
  g.foldl (fun a c => 10 * a + (c.toNat - 48)) 0

/-- Split a character list on a separator character, Python
`str.split(sep)`: always at least one (possibly empty) group. -/
def splitCh (sep : Char) : List Char → List (List Char)
  | [] => [[]]
  | c :: cs =>
    match splitCh sep cs with
    | [] => [[c]]
    | g :: gs => if c = sep then [] :: g :: gs else (c :: g) :: gs

/-- Join character-list groups with a separator character, Python
`sep.join(groups)`. -/
def joinCh (sep : Char) : List (List Char) → List Char
  | [] => []
  | [g] => g
  | g :: gs => g ++ sep :: joinCh sep gs

/-! ## Spec-modelled `utils` helpers

The module imports `mac_bytes_to_str`, `ipv4_bytes_to_str`,
`ipv6_bytes_to_str` and `mac_str_to_bytes` from `utils`, which is not in
the source tree. -/

/-- Modelled from the spec: `utils.mac_bytes_to_str`. The spec fixes the
hardware-address string form `xx:xx:xx:xx:xx:xx` (§6): each byte rendered
as two lowercase hex digits, bytes joined by colons. A pure formatter with
no length validation (the spec attributes truncation handling to the
reads, §4.1, not to the formatters). -/
def mac_bytes_to_str (bs : List Nat) : List Char :=
  joinCh ':' (bs.map byteToHex)

/-- Modelled from the spec: `utils.mac_str_to_bytes`, inverse of the
`xx:xx:xx:xx:xx:xx` form: split on colons, read each group as one hex
byte. -/
def mac_str_to_bytes (s : List Char) : List Nat :=
  (splitCh ':' s).map parseHexPair

/-- Modelled from the spec: `utils.ipv4_bytes_to_str`, the dotted-decimal
rendering of a 4-byte IPv4 address (§3, §4.1 step 7). A pure formatter
with no length validation. -/
def ipv4_bytes_to_str (bs : List Nat) : List Char :=
  joinCh '.' (bs.map natToDecStr)

/-- Modelled from the spec: `utils.ipv6_bytes_to_str`, a colon-hex
rendering of a 16-byte IPv6 address. No claim inspects the exact IPv6
textual form, only that the IPv6 branch formats the 16 address bytes. -/
def ipv6_bytes_to_str (bs : List Nat) : List Char :=
  joinCh ':' (bs.map byteToHex)

/-- Model of Python `ipaddress.IPv4Address(s).packed` on a valid dotted
decimal string: split on dots, read each group as a decimal byte. -/
def ipv4_str_to_bytes (s : List Char) : List Nat :=
  (splitCh '.' s).map decStrToNat

/-- A canonical two-hex-digit group: exactly two lowercase hexadecimal
digit characters. -/
def validHexPair (g : List Char) : Bool :=
  match g with
  | [a, b] => a ∈ hexDigitChars && b ∈ hexDigitChars
  | _ => false

/-- A valid MAC address string `xx:xx:xx:xx:xx:xx`: six colon-separated
two-hex-digit groups (canonical lowercase form). -/
def isValidMacStr (s : List Char) : Bool :=
  (splitCh ':' s).length == 6 && (splitCh ':' s).all validHexPair

/-- A canonical decimal byte group as `ipaddress.IPv4Address` accepts it:
one to three decimal digits, no leading zero, value at most 255. -/
def validDecByte (g : List Char) : Bool :=
  match g with
  | [a] => a ∈ decDigitChars
  | [a, b] => a ∈ decDigitChars && b ∈ decDigitChars && a != '0'
  | [a, b, c] => a ∈ decDigitChars && b ∈ decDigitChars && c ∈ decDigitChars
      && a != '0' && decStrToNat [a, b, c] ≤ 255
  | _ => false

/-- A valid dotted-decimal IPv4 address string: four dot-separated
canonical decimal byte groups. -/
def isValidIpv4Str (s : List Char) : Bool :=
  (splitCh '.' s).length == 4 && (splitCh '.' s).all validDecByte

/-! ## Byte-level primitives of the decoder -/

/-- Big-endian value of a byte string, Python `int.from_bytes(bs, 'big')`
(the empty string reads as `0`). -/
def bytesToNat (bs : List Nat) : Nat := bs.foldl (fun a b => 256 * a + b) 0

/-- Python slice `l[i:j]` on bytes (total: clamps at the list's end). -/
def slice (l : List Nat) (i j : Nat) : List Nat := (l.drop i).take (j - i)

/-- The decoded fields returned by `parse_arp_frame`
(src/module_arp.py line 77), in source order. -/
structure ParsedFrame where
  ETH_DEST_MAC : List Char
  ETH_SRC_MAC : List Char
  ETH_TYPE : Nat
  ARP_HTYPE : Nat
  ARP_PTYPE : Nat
  ARP_HLEN : Nat
  ARP_PLEN : Nat
  ARP_OPER : Nat
  IP_PRO_VER : Nat
  IP_ADDR_LEN : Nat
  ARP_SHA_MAC_ADDR : List Char
  ARP_SPA_PRO_ADDR : List Char
  ARP_THA_MAC_ADDR : List Char
  ARP_TPA_PRO_ADDR : List Char
deriving Repr, DecidableEq

/-- The Python exceptions `parse_arp_frame` can raise, tagged by raise
site: the four explicit `raise ValueError` statements (lines 40, 44, 55,
59) and the `IndexError` implicitly raised by `arp_header[4]` or
`arp_header[5]` when the header bytes run out. -/
inductive PyErr where
  | indexError
  | valueErrorHtype
  | valueErrorHlen
  | valueErrorPtype
  | valueErrorPlen
deriving Repr, DecidableEq

/-- Whether an exception is (a subclass of) Python `ValueError` — exactly
what the `except ValueError` handlers of `monitor` (line 92) and the
listener thread (line 173) catch. `IndexError` is not a `ValueError`. -/
def PyErr.isValueError : PyErr → Bool
  | .indexError => false
  | _ => true

/-- `parse_arp_frame` (src/module_arp.py lines 21–77). `stream.read(n)`
on a `BytesIO` returns up to `n` bytes (modelled by `take`/`drop`);
slicing is total; plain indexing (`arp_header[4]`, `arp_header[5]`)
raises `IndexError` past the end. Field extraction happens before the
validation checks, in source order. -/
def parse_arp_frame (frame : List Nat) : Except PyErr ParsedFrame :=
  let eth_header := frame.take 14
  let rest1 := frame.drop 14
  let ETH_DEST_MAC := mac_bytes_to_str (slice eth_header 0 6)
  let ETH_SRC_MAC := mac_bytes_to_str (slice eth_header 6 12)
  let ETH_TYPE := bytesToNat (slice eth_header 12 14)
  let arp_header := rest1.take 8
  let rest2 := rest1.drop 8
  let ARP_HTYPE := bytesToNat (slice arp_header 0 2)
  let ARP_PTYPE := bytesToNat (slice arp_header 2 4)
  match arp_header.get? 4 with
  | none => .error .indexError
  | some ARP_HLEN =>
    match arp_header.get? 5 with
    | none => .error .indexError
    | some ARP_PLEN =>
      let ARP_OPER := bytesToNat (slice arp_header 6 8)
      if ARP_HTYPE ≠ 1 then .error .valueErrorHtype
      else if ARP_HLEN ≠ 6 then .error .valueErrorHlen
      else if ARP_PTYPE = 0x0800 then
        if ARP_PLEN ≠ 4 then .error .valueErrorPlen
        else
          let arp_sender_addresses := rest2.take 10
          let rest3 := rest2.drop 10
          let arp_target_addresses := rest3.take 10
          .ok {
            ETH_DEST_MAC := ETH_DEST_MAC
            ETH_SRC_MAC := ETH_SRC_MAC
            ETH_TYPE := ETH_TYPE
            ARP_HTYPE := ARP_HTYPE
            ARP_PTYPE := ARP_PTYPE
            ARP_HLEN := ARP_HLEN
            ARP_PLEN := ARP_PLEN
            ARP_OPER := ARP_OPER
            IP_PRO_VER := 4
            IP_ADDR_LEN := 4
            ARP_SHA_MAC_ADDR := mac_bytes_to_str (slice arp_sender_addresses 0 6)
            ARP_SPA_PRO_ADDR := ipv4_bytes_to_str (slice arp_sender_addresses 6 10)
            ARP_THA_MAC_ADDR := mac_bytes_to_str (slice arp_target_addresses 0 6)
            ARP_TPA_PRO_ADDR := ipv4_bytes_to_str (slice arp_target_addresses 6 10) }
      else if ARP_PTYPE = 0x86DD then
        if ARP_PLEN ≠ 16 then .error .valueErrorPlen
        else
          let arp_sender_addresses := rest2.take 22
          let rest3 := rest2.drop 22
          let arp_target_addresses := rest3.take 22
          .ok {
            ETH_DEST_MAC := ETH_DEST_MAC
            ETH_SRC_MAC := ETH_SRC_MAC
            ETH_TYPE := ETH_TYPE
            ARP_HTYPE := ARP_HTYPE
            ARP_PTYPE := ARP_PTYPE
            ARP_HLEN := ARP_HLEN
            ARP_PLEN := ARP_PLEN
            ARP_OPER := ARP_OPER
            IP_PRO_VER := 6
            IP_ADDR_LEN := 16
            ARP_SHA_MAC_ADDR := mac_bytes_to_str (slice arp_sender_addresses 0 6)
            ARP_SPA_PRO_ADDR := ipv6_bytes_to_str (slice arp_sender_addresses 6 22)
            ARP_THA_MAC_ADDR := mac_bytes_to_str (slice arp_target_addresses 0 6)
            ARP_TPA_PRO_ADDR := ipv6_bytes_to_str (slice arp_target_addresses 6 22) }
      else .error .valueErrorPtype

/-- The frame bytes built by `transmit_arp_request_ipv4`
(src/module_arp.py lines 129–149): Ethernet header (broadcast
destination, source MAC, ethertype 0x0806), ARP header
(htype 1, ptype 0x0800, hlen 6, plen 4, oper 1), then
SHA ++ SPA ++ THA (zeros) ++ TPA. -/
def transmit_arp_request_ipv4_frame (source_mac source_ip target_ip : List Char) : List Nat :=
  let eth_header := mac_str_to_bytes [ 'f', 'f', ':', 'f', 'f', ':', 'f', 'f', ':', 'f', 'f', ':', 'f', 'f', ':', 'f', 'f' ]
      ++ mac_str_to_bytes source_mac ++ [0x08, 0x06]
  let arp_header := [0x00, 0x01] ++ [0x08, 0x00] ++ [0x06] ++ [0x04] ++ [0x00, 0x01]
  let SHA := mac_str_to_bytes source_mac
  let SPA := ipv4_str_to_bytes source_ip
  let THA := [0x00, 0x00, 0x00, 0x00, 0x00, 0x00]
  let TPA := ipv4_str_to_bytes target_ip
  let arp_payload := SHA ++ SPA ++ THA ++ TPA
  eth_header ++ arp_header ++ arp_payload

/-! ## Passive monitor state (src/module_arp.py lines 85–113)

`seen_hosts` is a Python dict from sender protocol address (string) to a
dict with keys `mac`, `count`, `last_seen`. It is modelled as an
association list with in-place value replacement (dict assignment keeps
the key's position; a new key is appended), and `time.time()` as an
externally supplied `Nat` timestamp per received frame. -/

/-- One `seen_hosts` value: `mac`, `count`, `last_seen`
(src/module_arp.py lines 101–111). -/
structure HostObs where
  mac : List Char
  count : Nat
  last_seen : Nat
deriving Repr, DecidableEq

/-- The `seen_hosts` dict: keys are sender protocol address strings. -/
abbrev SeenMap := List (List Char × HostObs)

/-- Dict lookup (`ARP_SPA_PRO_ADDR in seen_hosts` plus the read). -/
def lookupHost : SeenMap → List Char → Option HostObs
  | [], _ => none
  | (k, v) :: rest, key => if k = key then some v else lookupHost rest key

/-- Dict assignment `seen_hosts[key] = v`: replace in place, else append. -/
def setHost : SeenMap → List Char → HostObs → SeenMap
  | [], key, v => [(key, v)]
  | (k, w) :: rest, key, v =>
    if k = key then (k, v) :: rest else (k, w) :: setHost rest key v

/-- One iteration of the `monitor` receive loop body on a received frame
(src/module_arp.py lines 90–113): parse; `except ValueError: continue`
(any other exception propagates and aborts the loop, modelled as
`.error`); on operation 2 upsert `seen_hosts`; on any other operation the
map is unchanged. -/
def monitorStep (seen : SeenMap) (frame : List Nat) (now : Nat) :
    Except PyErr SeenMap :=
  match parse_arp_frame frame with
  | .error e => if e.isValueError then .ok seen else .error e
  | .ok r =>
    if r.ARP_OPER = 1 then .ok seen
    else if r.ARP_OPER = 2 then
      match lookupHost seen r.ARP_SPA_PRO_ADDR with
      | some prev =>
        .ok (setHost seen r.ARP_SPA_PRO_ADDR
          { mac := r.ARP_SHA_MAC_ADDR, count := prev.count + 1, last_seen := now })
      | none =>
        .ok (setHost seen r.ARP_SPA_PRO_ADDR
          { mac := r.ARP_SHA_MAC_ADDR, count := 1, last_seen := now })
    else .ok seen

/-- The `monitor` loop over a finite sequence of received frames with
their receive timestamps, starting from a given `seen_hosts` state. -/
def monitorRun : SeenMap → List (List Nat × Nat) → Except PyErr SeenMap
  | seen, [] => .ok seen
  | seen, (frame, now) :: evs =>
    match monitorStep seen frame now with
    | .error e => .error e
    | .ok seen2 => monitorRun seen2 evs

/-! ## Reply listener step (src/module_arp.py lines 161–183) -/

/-- One iteration of the listener thread's body on a received frame:
parse; `except ValueError: continue`; skip unless operation is 2 and the
Ethernet destination MAC equals the prober's transmitting MAC
(`target_mac`); otherwise append `(ARP_SPA_PRO_ADDR, ARP_SHA_MAC_ADDR)`
to `responses`. Any non-`ValueError` exception propagates (`.error`),
killing the thread. -/
def listenStep (target_mac : List Char) (responses : List (List Char × List Char))
    (frame : List Nat) : Except PyErr (List (List Char × List Char)) :=
  match parse_arp_frame frame with
  | .error e => if e.isValueError then .ok responses else .error e
  | .ok r =>
    if r.ARP_OPER ≠ 2 then .ok responses
    else if r.ETH_DEST_MAC ≠ target_mac then .ok responses
    else .ok (responses ++ [(r.ARP_SPA_PRO_ADDR, r.ARP_SHA_MAC_ADDR)])

/-- The `responses` list after one listener iteration: on an uncaught
exception the list is left as it was (the thread dies without touching
it). -/
def respAfter (target_mac : List Char) (responses : List (List Char × List Char))
    (frame : List Nat) : List (List Char × List Char) :=
  match listenStep target_mac responses frame with
  | .ok l => l
  | .error _ => responses

/-! ## Lemmas: split/join and digit round trips -/

theorem splitCh_ne_nil (sep : Char) (l : List Char) : splitCh sep l ≠ [] := by
  cases l with
  | nil => simp [splitCh]
  | cons c cs =>
    simp only [splitCh]
    split
    · simp
    · split <;> simp

/-- Unfolding equation of `joinCh` on a list of at least two groups. -/
theorem joinCh_cons₂ (sep : Char) (g h : List Char) (t : List (List Char)) :
    joinCh sep (g :: h :: t) = g ++ sep :: joinCh sep (h :: t) := rfl

theorem joinCh_splitCh (sep : Char) (l : List Char) :
    joinCh sep (splitCh sep l) = l := by
  induction l with
  | nil => rfl
  | cons c cs ih =>
    rcases hsp : splitCh sep cs with _ | ⟨g, gs⟩
    · exact absurd hsp (splitCh_ne_nil sep cs)
    · rw [hsp] at ih
      by_cases hc : c = sep
      · subst hc
        simp only [splitCh, hsp, eq_self_iff_true, if_true, joinCh_cons₂,
          List.nil_append]
        rw [ih]
      · simp only [splitCh, hsp, if_neg hc]
        cases gs with
        | nil => exact congrArg (List.cons c) ih
        | cons g2 gs2 =>
          rw [joinCh_cons₂] at ih
          rw [joinCh_cons₂]
          show c :: (g ++ sep :: joinCh sep (g2 :: gs2)) = c :: cs
          rw [ih]

theorem map_id_of_forall {α : Type} (l : List α) (f : α → α)
    (h : ∀ x ∈ l, f x = x) : l.map f = l := by
  induction l with
  | nil => rfl
  | cons a t ih =>
    simp only [List.map_cons, h a (List.mem_cons_self a t)]
    rw [ih fun x hx => h x (List.mem_cons_of_mem a hx)]

theorem hexChar_hexVal (c : Char) (h : c ∈ hexDigitChars) :
    hexChar (hexVal c) = c := by
  simp only [hexDigitChars, List.mem_append, List.mem_cons,
    List.not_mem_nil, or_false] at h
  rcases h with (rfl | rfl | rfl | rfl | rfl | rfl | rfl | rfl) |
    (rfl | rfl | rfl | rfl | rfl | rfl | rfl | rfl) <;> rfl

theorem hexVal_le (c : Char) (h : c ∈ hexDigitChars) : hexVal c ≤ 15 := by
  simp only [hexDigitChars, List.mem_append, List.mem_cons,
    List.not_mem_nil, or_false] at h
  rcases h with (rfl | rfl | rfl | rfl | rfl | rfl | rfl | rfl) |
    (rfl | rfl | rfl | rfl | rfl | rfl | rfl | rfl) <;> decide

theorem byteToHex_parseHexPair (g : List Char) (h : validHexPair g = true) :
    byteToHex (parseHexPair g) = g := by
  match g with
  | [] => simp [validHexPair] at h
  | [a] => simp [validHexPair] at h
  | a :: b :: c :: t => simp [validHexPair] at h
  | [a, b] =>
    simp only [validHexPair, Bool.and_eq_true, decide_eq_true_eq] at h
    obtain ⟨ha, hb⟩ := h
    have hva := hexVal_le a ha
    have hvb := hexVal_le b hb
    show [hexChar ((16 * hexVal a + hexVal b) / 16 % 16),
          hexChar ((16 * hexVal a + hexVal b) % 16)] = [a, b]
    have e1 : (16 * hexVal a + hexVal b) / 16 % 16 = hexVal a := by omega
    have e2 : (16 * hexVal a + hexVal b) % 16 = hexVal b := by omega
    rw [e1, e2, hexChar_hexVal a ha, hexChar_hexVal b hb]

theorem decDigit_facts (c : Char) (h : c ∈ decDigitChars) :
    48 ≤ c.toNat ∧ c.toNat ≤ 57 ∧ hexChar (c.toNat - 48) = c := by
  simp only [decDigitChars, List.mem_append, List.mem_cons,
    List.not_mem_nil, or_false] at h
  rcases h with (rfl | rfl | rfl | rfl | rfl) | (rfl | rfl | rfl | rfl | rfl) <;>
    exact ⟨by decide, by decide, by decide⟩

theorem decDigit_pos_of_ne_zero (c : Char) (h : c ∈ decDigitChars)
    (h0 : c ≠ '0') : 49 ≤ c.toNat := by
  simp only [decDigitChars, List.mem_append, List.mem_cons,
    List.not_mem_nil, or_false] at h
  rcases h with (rfl | rfl | rfl | rfl | rfl) | (rfl | rfl | rfl | rfl | rfl)
  · exact absurd rfl h0
  · decide
  · decide
  · decide
  · decide
  · decide
  · decide
  · decide
  · decide
  · decide

theorem natToDecStr_decStrToNat (g : List Char) (h : validDecByte g = true) :
    natToDecStr (decStrToNat g) = g := by
  match g with
  | [] => simp [validDecByte] at h
  | [a] =>
    simp only [validDecByte, decide_eq_true_eq] at h
    obtain ⟨h1, h2, h3⟩ := decDigit_facts a h
    have hv : decStrToNat [a] = a.toNat - 48 := by
      simp [decStrToNat]
    rw [hv, natToDecStr, if_pos (by omega)]
    rw [h3]
  | [a, b] =>
    simp only [validDecByte, Bool.and_eq_true, decide_eq_true_eq, bne_iff_ne,
      ne_eq] at h
    obtain ⟨⟨ha, hb⟩, ha0⟩ := h
    obtain ⟨ha1, ha2, ha3⟩ := decDigit_facts a ha
    obtain ⟨hb1, hb2, hb3⟩ := decDigit_facts b hb
    have ha4 := decDigit_pos_of_ne_zero a ha ha0
    have hv : decStrToNat [a, b] = 10 * (a.toNat - 48) + (b.toNat - 48) := by
      simp [decStrToNat]
      try omega
    rw [hv, natToDecStr, if_neg (by omega), if_pos (by omega)]
    have e1 : (10 * (a.toNat - 48) + (b.toNat - 48)) / 10 = a.toNat - 48 := by omega
    have e2 : (10 * (a.toNat - 48) + (b.toNat - 48)) % 10 = b.toNat - 48 := by omega
    rw [e1, e2, ha3, hb3]
  | [a, b, c] =>
    simp only [validDecByte, Bool.and_eq_true, decide_eq_true_eq, bne_iff_ne,
      ne_eq] at h
    obtain ⟨⟨⟨⟨ha, hb⟩, hc⟩, ha0⟩, hle⟩ := h
    obtain ⟨ha1, ha2, ha3⟩ := decDigit_facts a ha
    obtain ⟨hb1, hb2, hb3⟩ := decDigit_facts b hb
    obtain ⟨hc1, hc2, hc3⟩ := decDigit_facts c hc
    have ha4 := decDigit_pos_of_ne_zero a ha ha0
    have hv : decStrToNat [a, b, c] =
        100 * (a.toNat - 48) + 10 * (b.toNat - 48) + (c.toNat - 48) := by
      simp [decStrToNat]
      try omega
    rw [hv, natToDecStr, if_neg (by omega), if_neg (by omega)]
    have e1 : (100 * (a.toNat - 48) + 10 * (b.toNat - 48) + (c.toNat - 48)) / 100
        = a.toNat - 48 := by omega
    have e2 : (100 * (a.toNat - 48) + 10 * (b.toNat - 48) + (c.toNat - 48)) / 10 % 10
        = b.toNat - 48 := by omega
    have e3 : (100 * (a.toNat - 48) + 10 * (b.toNat - 48) + (c.toNat - 48)) % 10
        = c.toNat - 48 := by omega
    rw [e1, e2, e3, ha3, hb3, hc3]
  | a :: b :: c :: d :: t => simp [validDecByte] at h

/-- Round trip of a valid MAC address string through
`mac_str_to_bytes` / `mac_bytes_to_str`, with the byte count. -/
theorem mac_str_roundtrip (s : List Char) (h : isValidMacStr s = true) :
    mac_bytes_to_str (mac_str_to_bytes s) = s ∧ (mac_str_to_bytes s).length = 6 := by
  simp only [isValidMacStr, Bool.and_eq_true, beq_iff_eq, List.all_eq_true] at h
  obtain ⟨hlen, hall⟩ := h
  constructor
  · show joinCh ':' (((splitCh ':' s).map parseHexPair).map byteToHex) = s
    rw [List.map_map]
    rw [map_id_of_forall (splitCh ':' s) (byteToHex ∘ parseHexPair)
      fun g hg => byteToHex_parseHexPair g (hall g hg)]
    exact joinCh_splitCh ':' s
  · show ((splitCh ':' s).map parseHexPair).length = 6
    rw [List.length_map]
    exact hlen

/-- Round trip of a valid dotted-decimal IPv4 string through
`ipv4_str_to_bytes` / `ipv4_bytes_to_str`, with the byte count. -/
theorem ipv4_str_roundtrip (s : List Char) (h : isValidIpv4Str s = true) :
    ipv4_bytes_to_str (ipv4_str_to_bytes s) = s ∧ (ipv4_str_to_bytes s).length = 4 := by
  simp only [isValidIpv4Str, Bool.and_eq_true, beq_iff_eq, List.all_eq_true] at h
  obtain ⟨hlen, hall⟩ := h
  constructor
  · show joinCh '.' (((splitCh '.' s).map decStrToNat).map natToDecStr) = s
    rw [List.map_map]
    rw [map_id_of_forall (splitCh '.' s) (natToDecStr ∘ decStrToNat)
      fun g hg => natToDecStr_decStrToNat g (hall g hg)]
    exact joinCh_splitCh '.' s
  · show ((splitCh '.' s).map decStrToNat).length = 4
    rw [List.length_map]
    exact hlen

/-! ## Lemmas: decoding the encoder's output -/

theorem listLen4 (l : List Nat) (h : l.length = 4) :
    ∃ a b c d, l = [a, b, c, d] := by
  rcases l with _ | ⟨a, _ | ⟨b, _ | ⟨c, _ | ⟨d, rest⟩⟩⟩⟩
  · simp at h
  · simp at h
  · simp at h
  · simp at h
  · cases rest with
    | nil => exact ⟨a, b, c, d, rfl⟩
    | cons g t => simp [List.length] at h

theorem listLen6 (l : List Nat) (h : l.length = 6) :
    ∃ a b c d e f, l = [a, b, c, d, e, f] := by
  rcases l with _ | ⟨a, _ | ⟨b, _ | ⟨c, _ | ⟨d, _ | ⟨e, _ | ⟨f, rest⟩⟩⟩⟩⟩⟩
  · simp at h
  · simp at h
  · simp at h
  · simp at h
  · simp at h
  · simp at h
  · cases rest with
    | nil => exact ⟨a, b, c, d, e, f, rfl⟩
    | cons g t => simp [List.length] at h

/-- The encoder's output, with the broadcast address folded to bytes and
grouped exactly as in the source. -/
theorem transmit_frame_bytes (smac sip tip : List Char) :
    transmit_arp_request_ipv4_frame smac sip tip =
      [255, 255, 255, 255, 255, 255] ++ mac_str_to_bytes smac ++ [8, 6]
        ++ ([0, 1] ++ [8, 0] ++ [6] ++ [4] ++ [0, 1])
        ++ (mac_str_to_bytes smac ++ ipv4_str_to_bytes sip
            ++ [0, 0, 0, 0, 0, 0] ++ ipv4_str_to_bytes tip) := rfl

/-- Decoding the encoder's byte layout, for arbitrary 6-byte source MAC
and 4-byte source/target IPv4 addresses. -/
theorem parse_transmit_bytes
    (m1 m2 m3 m4 m5 m6 s1 s2 s3 s4 t1 t2 t3 t4 : Nat) :
    parse_arp_frame
      ([255, 255, 255, 255, 255, 255] ++ [m1, m2, m3, m4, m5, m6] ++ [8, 6]
        ++ ([0, 1] ++ [8, 0] ++ [6] ++ [4] ++ [0, 1])
        ++ ([m1, m2, m3, m4, m5, m6] ++ [s1, s2, s3, s4]
            ++ [0, 0, 0, 0, 0, 0] ++ [t1, t2, t3, t4])) =
      .ok {
        ETH_DEST_MAC := mac_bytes_to_str [255, 255, 255, 255, 255, 255]
        ETH_SRC_MAC := mac_bytes_to_str [m1, m2, m3, m4, m5, m6]
        ETH_TYPE := 0x0806
        ARP_HTYPE := 1
        ARP_PTYPE := 0x0800
        ARP_HLEN := 6
        ARP_PLEN := 4
        ARP_OPER := 1
        IP_PRO_VER := 4
        IP_ADDR_LEN := 4
        ARP_SHA_MAC_ADDR := mac_bytes_to_str [m1, m2, m3, m4, m5, m6]
        ARP_SPA_PRO_ADDR := ipv4_bytes_to_str [s1, s2, s3, s4]
        ARP_THA_MAC_ADDR := mac_bytes_to_str [0, 0, 0, 0, 0, 0]
        ARP_TPA_PRO_ADDR := ipv4_bytes_to_str [t1, t2, t3, t4] } := rfl

/-- Peel one explicit byte off a list of known positive length. -/
theorem listCons (l : List Nat) (n : Nat) (h : l.length = n + 1) :
    ∃ a t, l = a :: t ∧ t.length = n := by
  cases l with
  | nil => simp at h
  | cons a t => exact ⟨a, t, rfl, by simpa using h⟩

/-- Evaluation of `parse_arp_frame` on any frame with at least 20 bytes,
with the first 20 bytes explicit: field extraction succeeds and the
validation checks run in source order. -/
theorem parse_arp_frame_head
    (b0 b1 b2 b3 b4 b5 b6 b7 b8 b9 b10 b11 b12 b13
     b14 b15 b16 b17 b18 b19 : Nat) (rest : List Nat) :
    parse_arp_frame
      (b0 :: b1 :: b2 :: b3 :: b4 :: b5 :: b6 :: b7 :: b8 :: b9 :: b10 :: b11
        :: b12 :: b13 :: b14 :: b15 :: b16 :: b17 :: b18 :: b19 :: rest) =
      (if bytesToNat [b14, b15] ≠ 1 then .error .valueErrorHtype
       else if b18 ≠ 6 then .error .valueErrorHlen
       else if bytesToNat [b16, b17] = 0x0800 then
         if b19 ≠ 4 then .error .valueErrorPlen
         else .ok {
           ETH_DEST_MAC := mac_bytes_to_str [b0, b1, b2, b3, b4, b5]
           ETH_SRC_MAC := mac_bytes_to_str [b6, b7, b8, b9, b10, b11]
           ETH_TYPE := bytesToNat [b12, b13]
           ARP_HTYPE := bytesToNat [b14, b15]
           ARP_PTYPE := bytesToNat [b16, b17]
           ARP_HLEN := b18
           ARP_PLEN := b19
           ARP_OPER := bytesToNat (slice (rest.take 2) 0 2)
           IP_PRO_VER := 4
           IP_ADDR_LEN := 4
           ARP_SHA_MAC_ADDR := mac_bytes_to_str (slice (slice rest 2 12) 0 6)
           ARP_SPA_PRO_ADDR := ipv4_bytes_to_str (slice (slice rest 2 12) 6 10)
           ARP_THA_MAC_ADDR := mac_bytes_to_str (slice (slice (rest.drop 2) 10 20) 0 6)
           ARP_TPA_PRO_ADDR := ipv4_bytes_to_str (slice (slice (rest.drop 2) 10 20) 6 10) }
       else if bytesToNat [b16, b17] = 0x86DD then
         if b19 ≠ 16 then .error .valueErrorPlen
         else .ok {
           ETH_DEST_MAC := mac_bytes_to_str [b0, b1, b2, b3, b4, b5]
           ETH_SRC_MAC := mac_bytes_to_str [b6, b7, b8, b9, b10, b11]
           ETH_TYPE := bytesToNat [b12, b13]
           ARP_HTYPE := bytesToNat [b14, b15]
           ARP_PTYPE := bytesToNat [b16, b17]
           ARP_HLEN := b18
           ARP_PLEN := b19
           ARP_OPER := bytesToNat (slice (rest.take 2) 0 2)
           IP_PRO_VER := 6
           IP_ADDR_LEN := 16
           ARP_SHA_MAC_ADDR := mac_bytes_to_str (slice (slice rest 2 24) 0 6)
           ARP_SPA_PRO_ADDR := ipv6_bytes_to_str (slice (slice rest 2 24) 6 22)
           ARP_THA_MAC_ADDR := mac_bytes_to_str (slice (slice (rest.drop 2) 22 44) 0 6)
           ARP_TPA_PRO_ADDR := ipv6_bytes_to_str (slice (slice (rest.drop 2) 22 44) 6 22) }
       else .error .valueErrorPtype) := rfl

/-- Whether decoding succeeded (Boolean view of the `Except`). -/
def parseSucceeds (f : List Nat) : Bool :=
  match parse_arp_frame f with
  | .ok _ => true
  | .error _ => false

/-- Any frame of at least 20 bytes splits into 20 explicit bytes plus a
remainder. -/
theorem exists_head20 (f : List Nat) (h : 20 ≤ f.length) :
    ∃ b0 b1 b2 b3 b4 b5 b6 b7 b8 b9 b10 b11 b12 b13 b14 b15 b16 b17 b18 b19 rest,
      f = b0 :: b1 :: b2 :: b3 :: b4 :: b5 :: b6 :: b7 :: b8 :: b9 :: b10 :: b11
        :: b12 :: b13 :: b14 :: b15 :: b16 :: b17 :: b18 :: b19 :: rest := by
  obtain ⟨b0, t, rfl, h0⟩ := listCons f (f.length - 1) (by omega)
  simp only [List.length_cons] at h
  obtain ⟨b1, t, rfl, h1⟩ := listCons t (t.length - 1) (by omega)
  simp only [List.length_cons] at h
  obtain ⟨b2, t, rfl, h2⟩ := listCons t (t.length - 1) (by omega)
  simp only [List.length_cons] at h
  obtain ⟨b3, t, rfl, h3⟩ := listCons t (t.length - 1) (by omega)
  simp only [List.length_cons] at h
  obtain ⟨b4, t, rfl, h4⟩ := listCons t (t.length - 1) (by omega)
  simp only [List.length_cons] at h
  obtain ⟨b5, t, rfl, h5⟩ := listCons t (t.length - 1) (by omega)
  simp only [List.length_cons] at h
  obtain ⟨b6, t, rfl, h6⟩ := listCons t (t.length - 1) (by omega)
  simp only [List.length_cons] at h
  obtain ⟨b7, t, rfl, h7⟩ := listCons t (t.length - 1) (by omega)
  simp only [List.length_cons] at h
  obtain ⟨b8, t, rfl, h8⟩ := listCons t (t.length - 1) (by omega)
  simp only [List.length_cons] at h
  obtain ⟨b9, t, rfl, h9⟩ := listCons t (t.length - 1) (by omega)
  simp only [List.length_cons] at h
  obtain ⟨b10, t, rfl, h10⟩ := listCons t (t.length - 1) (by omega)
  simp only [List.length_cons] at h
  obtain ⟨b11, t, rfl, h11⟩ := listCons t (t.length - 1) (by omega)
  simp only [List.length_cons] at h
  obtain ⟨b12, t, rfl, h12⟩ := listCons t (t.length - 1) (by omega)
  simp only [List.length_cons] at h
  obtain ⟨b13, t, rfl, h13⟩ := listCons t (t.length - 1) (by omega)
  simp only [List.length_cons] at h
  obtain ⟨b14, t, rfl, h14⟩ := listCons t (t.length - 1) (by omega)
  simp only [List.length_cons] at h
  obtain ⟨b15, t, rfl, h15⟩ := listCons t (t.length - 1) (by omega)
  simp only [List.length_cons] at h
  obtain ⟨b16, t, rfl, h16⟩ := listCons t (t.length - 1) (by omega)
  simp only [List.length_cons] at h
  obtain ⟨b17, t, rfl, h17⟩ := listCons t (t.length - 1) (by omega)
  simp only [List.length_cons] at h
  obtain ⟨b18, t, rfl, h18⟩ := listCons t (t.length - 1) (by omega)
  simp only [List.length_cons] at h
  obtain ⟨b19, t, rfl, h19⟩ := listCons t (t.length - 1) (by omega)
  exact ⟨b0, b1, b2, b3, b4, b5, b6, b7, b8, b9, b10, b11, b12, b13, b14, b15,
    b16, b17, b18, b19, t, rfl⟩

end Netkit


namespace Netkit

/-! ## Claim theorems -/

/-- C2: the claim says every failure of `parse_arp_frame` is caught by the
receive loops' error handling. The code contradicts it: on any frame of
14–19 bytes, field extraction raises `IndexError` (`arp_header[4]`), which
the loops' `except ValueError` does not catch, so the monitor loop and
the listener thread abort. Evaluated here at a 14-byte all-zero frame. -/
theorem c2_index_error_escapes_loops :
    parse_arp_frame (List.replicate 14 0) = Except.error PyErr.indexError ∧
    PyErr.isValueError PyErr.indexError = false ∧
    monitorStep [] (List.replicate 14 0) 0 = Except.error PyErr.indexError ∧
    listenStep [] [] (List.replicate 14 0) = Except.error PyErr.indexError :=
  ⟨rfl, rfl, rfl, rfl⟩

/-- C3: the claim says every too-short frame fails with a Truncated decode
error. The code has no truncation handling at all: a 14-byte frame raises
`IndexError` (not a caught decode error), and a 20-byte frame carrying a
well-formed IPv4 ARP header decodes successfully with empty address
strings instead of failing. -/
theorem c3_no_truncated_error :
    parse_arp_frame (List.replicate 14 0) = Except.error PyErr.indexError ∧
    parseSucceeds (List.replicate 14 0 ++ [0, 1, 8, 0, 6, 4]) = true ∧
    (parse_arp_frame (List.replicate 14 0 ++ [0, 1, 8, 0, 6, 4])).isOk = true :=
  ⟨rfl, rfl, rfl⟩

/-- C4 counterexample: a 16-byte frame whose hardware-type field is 2
(not 1) does not fail at the hardware-type check: field extraction raises
`IndexError` first, so the claim as stated (UnsupportedHardwareType
regardless of all other fields) is false. -/
theorem c4_counterexample :
    bytesToNat (slice (List.replicate 14 0 ++ [0, 2]) 14 16) = 2 ∧
    parse_arp_frame (List.replicate 14 0 ++ [0, 2]) =
      Except.error PyErr.indexError :=
  ⟨rfl, rfl⟩

/-- C4 (amended with the length bound the counterexample forces): for
every frame of at least 20 bytes whose hardware-type field is not 1,
`parse_arp_frame` fails with the error raised at the hardware-type check
(the spec's UnsupportedHardwareType), regardless of all other fields. -/
theorem c4_unsupported_hardware_type (f : List Nat) (hl : 20 ≤ f.length)
    (hht : bytesToNat (slice f 14 16) ≠ 1) :
    parse_arp_frame f = Except.error PyErr.valueErrorHtype := by
  obtain ⟨b0, b1, b2, b3, b4, b5, b6, b7, b8, b9, b10, b11, b12, b13, b14,
    b15, b16, b17, b18, b19, rest, rfl⟩ := exists_head20 f hl
  rw [parse_arp_frame_head]
  exact if_pos hht

/-- C4 witness: a concrete 20-byte frame with hardware-type 2. -/
theorem c4_unsupported_hardware_type_witness :
    20 ≤ (List.replicate 14 0 ++ [0, 2, 8, 0, 6, 4]).length ∧
    bytesToNat (slice (List.replicate 14 0 ++ [0, 2, 8, 0, 6, 4]) 14 16) ≠ 1 ∧
    parse_arp_frame (List.replicate 14 0 ++ [0, 2, 8, 0, 6, 4]) =
      Except.error PyErr.valueErrorHtype :=
  ⟨by decide, by decide,
    c4_unsupported_hardware_type (List.replicate 14 0 ++ [0, 2, 8, 0, 6, 4])
      (by decide) (by decide)⟩

end Netkit

namespace Netkit

/-- C5 counterexample: a 19-byte frame with hardware-type 1,
hardware-address-length 6 and protocol-type 0x9999 (neither IPv4 nor
IPv6) does not fail with UnsupportedProtocolType: extraction of the
missing protocol-address-length byte raises `IndexError` first. -/
theorem c5_counterexample :
    bytesToNat (slice (List.replicate 14 0 ++ [0, 1, 0x99, 0x99, 6]) 14 16) = 1 ∧
    (List.replicate 14 0 ++ [0, 1, 0x99, 0x99, 6]).get? 18 = some 6 ∧
    bytesToNat (slice (List.replicate 14 0 ++ [0, 1, 0x99, 0x99, 6]) 16 18) ≠ 0x0800 ∧
    bytesToNat (slice (List.replicate 14 0 ++ [0, 1, 0x99, 0x99, 6]) 16 18) ≠ 0x86DD ∧
    parse_arp_frame (List.replicate 14 0 ++ [0, 1, 0x99, 0x99, 6]) =
      Except.error PyErr.indexError :=
  ⟨rfl, rfl, by decide, by decide, rfl⟩

/-- C5 (amended with the protocol-address-length byte's presence, i.e. a
frame of at least 20 bytes, which the counterexample forces): with
hardware-type 1 and hardware-address-length 6, protocol-type 0x0800 with
protocol-address-length ≠ 4 fails at the length cross-check (the spec's
LengthMismatch), protocol-type 0x86DD with length ≠ 16 likewise, and any
other protocol-type fails at the protocol-type check (the spec's
UnsupportedProtocolType). -/
theorem c5_protocol_type_checks (f : List Nat) (hl : 20 ≤ f.length)
    (hht : bytesToNat (slice f 14 16) = 1) (hhl : f.get? 18 = some 6) :
    (bytesToNat (slice f 16 18) = 0x0800 → f.get? 19 ≠ some 4 →
      parse_arp_frame f = Except.error PyErr.valueErrorPlen) ∧
    (bytesToNat (slice f 16 18) = 0x86DD → f.get? 19 ≠ some 16 →
      parse_arp_frame f = Except.error PyErr.valueErrorPlen) ∧
    (bytesToNat (slice f 16 18) ≠ 0x0800 → bytesToNat (slice f 16 18) ≠ 0x86DD →
      parse_arp_frame f = Except.error PyErr.valueErrorPtype) := by
  obtain ⟨b0, b1, b2, b3, b4, b5, b6, b7, b8, b9, b10, b11, b12, b13, b14,
    b15, b16, b17, b18, b19, rest, rfl⟩ := exists_head20 f hl
  have hht2 : bytesToNat [b14, b15] = 1 := hht
  have hb18 : b18 = 6 := Option.some.inj hhl
  refine ⟨?_, ?_, ?_⟩
  · intro hpt hpl
    have hptB : bytesToNat [b16, b17] = 0x0800 := hpt
    have hb19 : b19 ≠ 4 := by
      intro he
      exact hpl (by rw [show ((b0 :: b1 :: b2 :: b3 :: b4 :: b5 :: b6 :: b7 :: b8
        :: b9 :: b10 :: b11 :: b12 :: b13 :: b14 :: b15 :: b16 :: b17 :: b18
        :: b19 :: rest).get? 19) = some b19 from rfl, he])
    rw [parse_arp_frame_head, if_neg (fun hne => hne hht2),
      if_neg (fun hne => hne hb18), if_pos hptB]
    exact if_pos hb19
  · intro hpt hpl
    have hptB : bytesToNat [b16, b17] = 0x86DD := hpt
    have hb19 : b19 ≠ 16 := by
      intro he
      exact hpl (by rw [show ((b0 :: b1 :: b2 :: b3 :: b4 :: b5 :: b6 :: b7 :: b8
        :: b9 :: b10 :: b11 :: b12 :: b13 :: b14 :: b15 :: b16 :: b17 :: b18
        :: b19 :: rest).get? 19) = some b19 from rfl, he])
    have hne0800 : bytesToNat [b16, b17] ≠ 0x0800 := by
      rw [hptB]
      decide
    rw [parse_arp_frame_head, if_neg (fun hne => hne hht2),
      if_neg (fun hne => hne hb18), if_neg hne0800, if_pos hptB]
    exact if_pos hb19
  · intro hpt1 hpt2
    have hpt1B : bytesToNat [b16, b17] ≠ 0x0800 := hpt1
    have hpt2B : bytesToNat [b16, b17] ≠ 0x86DD := hpt2
    rw [parse_arp_frame_head, if_neg (fun hne => hne hht2),
      if_neg (fun hne => hne hb18), if_neg hpt1B]
    exact if_neg hpt2B

/-- C5 witness: a concrete 28-byte frame, hardware-type 1, hlen 6,
protocol-type 0x0800, plen 6 (not 4): the plen cross-check fires. -/
theorem c5_protocol_type_checks_witness :
    20 ≤ (List.replicate 14 0 ++ [0, 1, 8, 0, 6, 6, 0, 2] ++ List.replicate 6 9).length ∧
    bytesToNat (slice (List.replicate 14 0 ++ [0, 1, 8, 0, 6, 6, 0, 2] ++ List.replicate 6 9) 14 16) = 1 ∧
    (List.replicate 14 0 ++ [0, 1, 8, 0, 6, 6, 0, 2] ++ List.replicate 6 9).get? 18 = some 6 ∧
    bytesToNat (slice (List.replicate 14 0 ++ [0, 1, 8, 0, 6, 6, 0, 2] ++ List.replicate 6 9) 16 18) = 0x0800 ∧
    parse_arp_frame (List.replicate 14 0 ++ [0, 1, 8, 0, 6, 6, 0, 2] ++ List.replicate 6 9) =
      Except.error PyErr.valueErrorPlen :=
  ⟨by decide, by decide, by decide, by decide,
    ((c5_protocol_type_checks
      (List.replicate 14 0 ++ [0, 1, 8, 0, 6, 6, 0, 2] ++ List.replicate 6 9)
      (by decide) (by decide) (by decide)).1 (by decide) (by decide))⟩

end Netkit

namespace Netkit

/-- C1: decoding the frame built by `transmit_arp_request_ipv4` from a
valid source MAC string and valid source/target IPv4 strings succeeds,
and the decoded fields equal the inputs exactly: sender hardware address
= source MAC, sender protocol address = source IP, target protocol
address = target IP, operation = 1 (with the broadcast destination,
ethertype 0x0806 and the fixed ARP header as built). -/
theorem c1_encode_decode_roundtrip (smac sip tip : List Char)
    (h1 : isValidMacStr smac = true) (h2 : isValidIpv4Str sip = true)
    (h3 : isValidIpv4Str tip = true) :
    parse_arp_frame (transmit_arp_request_ipv4_frame smac sip tip) =
      Except.ok {
        ETH_DEST_MAC := mac_bytes_to_str [255, 255, 255, 255, 255, 255]
        ETH_SRC_MAC := smac
        ETH_TYPE := 0x0806
        ARP_HTYPE := 1
        ARP_PTYPE := 0x0800
        ARP_HLEN := 6
        ARP_PLEN := 4
        ARP_OPER := 1
        IP_PRO_VER := 4
        IP_ADDR_LEN := 4
        ARP_SHA_MAC_ADDR := smac
        ARP_SPA_PRO_ADDR := sip
        ARP_THA_MAC_ADDR := mac_bytes_to_str [0, 0, 0, 0, 0, 0]
        ARP_TPA_PRO_ADDR := tip } := by
  obtain ⟨hm, hml⟩ := mac_str_roundtrip smac h1
  obtain ⟨hs, hsl⟩ := ipv4_str_roundtrip sip h2
  obtain ⟨ht, htl⟩ := ipv4_str_roundtrip tip h3
  obtain ⟨m1, m2, m3, m4, m5, m6, hmB⟩ := listLen6 _ hml
  obtain ⟨s1, s2, s3, s4, hsB⟩ := listLen4 _ hsl
  obtain ⟨t1, t2, t3, t4, htB⟩ := listLen4 _ htl
  rw [transmit_frame_bytes, hmB, hsB, htB, parse_transmit_bytes,
    ← hmB, ← hsB, ← htB, hm, hs, ht]

/-- C1 witness: source MAC 02:00:00:00:00:01, source IP 10.0.0.1, target
IP 10.0.0.2. -/
theorem c1_encode_decode_roundtrip_witness :
    isValidMacStr ['0','2',':','0','0',':','0','0',':','0','0',':','0','0',':','0','1'] = true ∧
    isValidIpv4Str ['1','0','.','0','.','0','.','1'] = true ∧
    isValidIpv4Str ['1','0','.','0','.','0','.','2'] = true ∧
    parse_arp_frame (transmit_arp_request_ipv4_frame
        ['0','2',':','0','0',':','0','0',':','0','0',':','0','0',':','0','1']
        ['1','0','.','0','.','0','.','1'] ['1','0','.','0','.','0','.','2']) =
      Except.ok {
        ETH_DEST_MAC := mac_bytes_to_str [255, 255, 255, 255, 255, 255]
        ETH_SRC_MAC := ['0','2',':','0','0',':','0','0',':','0','0',':','0','0',':','0','1']
        ETH_TYPE := 0x0806
        ARP_HTYPE := 1
        ARP_PTYPE := 0x0800
        ARP_HLEN := 6
        ARP_PLEN := 4
        ARP_OPER := 1
        IP_PRO_VER := 4
        IP_ADDR_LEN := 4
        ARP_SHA_MAC_ADDR := ['0','2',':','0','0',':','0','0',':','0','0',':','0','0',':','0','1']
        ARP_SPA_PRO_ADDR := ['1','0','.','0','.','0','.','1']
        ARP_THA_MAC_ADDR := mac_bytes_to_str [0, 0, 0, 0, 0, 0]
        ARP_TPA_PRO_ADDR := ['1','0','.','0','.','0','.','2'] } :=
  ⟨by decide, by decide, by decide,
    c1_encode_decode_roundtrip
      ['0','2',':','0','0',':','0','0',':','0','0',':','0','0',':','0','1']
      ['1','0','.','0','.','0','.','1'] ['1','0','.','0','.','0','.','2']
      (by decide) (by decide) (by decide)⟩

end Netkit

namespace Netkit

/-- C6: for every valid source MAC and source/target IPv4 strings, the
frame built by `transmit_arp_request_ipv4` is exactly 42 bytes: broadcast
destination, source MAC, ethertype 0x0806, ARP header with
hardware-type 1, protocol-type 0x0800, hlen 6, plen 4, operation 1,
then SHA = source MAC bytes, SPA = source IP bytes, THA = six zero
bytes, TPA = target IP bytes, big-endian, no padding. -/
theorem c6_transmit_frame_layout (smac sip tip : List Char)
    (h1 : isValidMacStr smac = true) (h2 : isValidIpv4Str sip = true)
    (h3 : isValidIpv4Str tip = true) :
    (transmit_arp_request_ipv4_frame smac sip tip).length = 42 ∧
    slice (transmit_arp_request_ipv4_frame smac sip tip) 0 6 = [255, 255, 255, 255, 255, 255] ∧
    slice (transmit_arp_request_ipv4_frame smac sip tip) 6 12 = mac_str_to_bytes smac ∧
    bytesToNat (slice (transmit_arp_request_ipv4_frame smac sip tip) 12 14) = 0x0806 ∧
    bytesToNat (slice (transmit_arp_request_ipv4_frame smac sip tip) 14 16) = 1 ∧
    bytesToNat (slice (transmit_arp_request_ipv4_frame smac sip tip) 16 18) = 0x0800 ∧
    (transmit_arp_request_ipv4_frame smac sip tip).get? 18 = some 6 ∧
    (transmit_arp_request_ipv4_frame smac sip tip).get? 19 = some 4 ∧
    bytesToNat (slice (transmit_arp_request_ipv4_frame smac sip tip) 20 22) = 1 ∧
    slice (transmit_arp_request_ipv4_frame smac sip tip) 22 28 = mac_str_to_bytes smac ∧
    slice (transmit_arp_request_ipv4_frame smac sip tip) 28 32 = ipv4_str_to_bytes sip ∧
    slice (transmit_arp_request_ipv4_frame smac sip tip) 32 38 = [0, 0, 0, 0, 0, 0] ∧
    slice (transmit_arp_request_ipv4_frame smac sip tip) 38 42 = ipv4_str_to_bytes tip := by
  obtain ⟨hm, hml⟩ := mac_str_roundtrip smac h1
  obtain ⟨hs, hsl⟩ := ipv4_str_roundtrip sip h2
  obtain ⟨ht, htl⟩ := ipv4_str_roundtrip tip h3
  obtain ⟨m1, m2, m3, m4, m5, m6, hmB⟩ := listLen6 _ hml
  obtain ⟨s1, s2, s3, s4, hsB⟩ := listLen4 _ hsl
  obtain ⟨t1, t2, t3, t4, htB⟩ := listLen4 _ htl
  rw [transmit_frame_bytes, hmB, hsB, htB]
  exact ⟨rfl, rfl, rfl, rfl, rfl, rfl, rfl, rfl, rfl, rfl, rfl, rfl, rfl⟩

/-- C6 witness: source MAC 02:00:00:00:00:01, source IP 10.0.0.1, target
IP 10.0.0.2; the layout facts hold of the concrete 42-byte frame. -/
theorem c6_transmit_frame_layout_witness :
    isValidMacStr ['0','2',':','0','0',':','0','0',':','0','0',':','0','0',':','0','1'] = true ∧
    isValidIpv4Str ['1','0','.','0','.','0','.','1'] = true ∧
    isValidIpv4Str ['1','0','.','0','.','0','.','2'] = true ∧
    ((transmit_arp_request_ipv4_frame
        ['0','2',':','0','0',':','0','0',':','0','0',':','0','0',':','0','1']
        ['1','0','.','0','.','0','.','1'] ['1','0','.','0','.','0','.','2']).length = 42 ∧
      slice (transmit_arp_request_ipv4_frame
        ['0','2',':','0','0',':','0','0',':','0','0',':','0','0',':','0','1']
        ['1','0','.','0','.','0','.','1'] ['1','0','.','0','.','0','.','2']) 0 6 = [255, 255, 255, 255, 255, 255] ∧
      slice (transmit_arp_request_ipv4_frame
        ['0','2',':','0','0',':','0','0',':','0','0',':','0','0',':','0','1']
        ['1','0','.','0','.','0','.','1'] ['1','0','.','0','.','0','.','2']) 6 12 =
        mac_str_to_bytes ['0','2',':','0','0',':','0','0',':','0','0',':','0','0',':','0','1'] ∧
      bytesToNat (slice (transmit_arp_request_ipv4_frame
        ['0','2',':','0','0',':','0','0',':','0','0',':','0','0',':','0','1']
        ['1','0','.','0','.','0','.','1'] ['1','0','.','0','.','0','.','2']) 12 14) = 0x0806 ∧
      bytesToNat (slice (transmit_arp_request_ipv4_frame
        ['0','2',':','0','0',':','0','0',':','0','0',':','0','0',':','0','1']
        ['1','0','.','0','.','0','.','1'] ['1','0','.','0','.','0','.','2']) 14 16) = 1 ∧
      bytesToNat (slice (transmit_arp_request_ipv4_frame
        ['0','2',':','0','0',':','0','0',':','0','0',':','0','0',':','0','1']
        ['1','0','.','0','.','0','.','1'] ['1','0','.','0','.','0','.','2']) 16 18) = 0x0800 ∧
      (transmit_arp_request_ipv4_frame
        ['0','2',':','0','0',':','0','0',':','0','0',':','0','0',':','0','1']
        ['1','0','.','0','.','0','.','1'] ['1','0','.','0','.','0','.','2']).get? 18 = some 6 ∧
      (transmit_arp_request_ipv4_frame
        ['0','2',':','0','0',':','0','0',':','0','0',':','0','0',':','0','1']
        ['1','0','.','0','.','0','.','1'] ['1','0','.','0','.','0','.','2']).get? 19 = some 4 ∧
      bytesToNat (slice (transmit_arp_request_ipv4_frame
        ['0','2',':','0','0',':','0','0',':','0','0',':','0','0',':','0','1']
        ['1','0','.','0','.','0','.','1'] ['1','0','.','0','.','0','.','2']) 20 22) = 1 ∧
      slice (transmit_arp_request_ipv4_frame
        ['0','2',':','0','0',':','0','0',':','0','0',':','0','0',':','0','1']
        ['1','0','.','0','.','0','.','1'] ['1','0','.','0','.','0','.','2']) 22 28 =
        mac_str_to_bytes ['0','2',':','0','0',':','0','0',':','0','0',':','0','0',':','0','1'] ∧
      slice (transmit_arp_request_ipv4_frame
        ['0','2',':','0','0',':','0','0',':','0','0',':','0','0',':','0','1']
        ['1','0','.','0','.','0','.','1'] ['1','0','.','0','.','0','.','2']) 28 32 =
        ipv4_str_to_bytes ['1','0','.','0','.','0','.','1'] ∧
      slice (transmit_arp_request_ipv4_frame
        ['0','2',':','0','0',':','0','0',':','0','0',':','0','0',':','0','1']
        ['1','0','.','0','.','0','.','1'] ['1','0','.','0','.','0','.','2']) 32 38 = [0, 0, 0, 0, 0, 0] ∧
      slice (transmit_arp_request_ipv4_frame
        ['0','2',':','0','0',':','0','0',':','0','0',':','0','0',':','0','1']
        ['1','0','.','0','.','0','.','1'] ['1','0','.','0','.','0','.','2']) 38 42 =
        ipv4_str_to_bytes ['1','0','.','0','.','0','.','2']) :=
  ⟨by decide, by decide, by decide,
    c6_transmit_frame_layout
      ['0','2',':','0','0',':','0','0',':','0','0',':','0','0',':','0','1']
      ['1','0','.','0','.','0','.','1'] ['1','0','.','0','.','0','.','2']
      (by decide) (by decide) (by decide)⟩

end Netkit

namespace Netkit

/-- A slice that ends within the left operand ignores an appended tail. -/
theorem slice_append_of_le (l s : List Nat) (i j : Nat) (h : j ≤ l.length) :
    slice (l ++ s) i j = slice l i j := by
  unfold slice
  by_cases hij : i ≤ l.length
  · rw [List.drop_append_of_le_length hij,
      List.take_append_of_le_length (by rw [List.length_drop]; omega)]
  · have hz : j - i = 0 := by omega
    simp [hz]

/-- The sender hardware address a frame decodes to (empty on failure);
used to exhibit concrete differences between decoded results. -/
def parsedSha (f : List Nat) : List Char :=
  match parse_arp_frame f with
  | .ok r => r.ARP_SHA_MAC_ADDR
  | .error _ => []

/-- C10 counterexample: a 20-byte frame with a well-formed IPv4 ARP header
decodes successfully (with empty address blocks), but appending 22 extra
bytes changes the decoded sender hardware address, so decoding is not
invariant under appending trailing bytes for every successfully decoded
input. -/
theorem c10_counterexample :
    parseSucceeds (List.replicate 14 0 ++ [0, 1, 8, 0, 6, 4]) = true ∧
    parseSucceeds (List.replicate 14 0 ++ [0, 1, 8, 0, 6, 4] ++ List.replicate 22 1) = true ∧
    parsedSha (List.replicate 14 0 ++ [0, 1, 8, 0, 6, 4]) = [] ∧
    parsedSha (List.replicate 14 0 ++ [0, 1, 8, 0, 6, 4] ++ List.replicate 22 1) =
      ['0','1',':','0','1',':','0','1',':','0','1',':','0','1',':','0','1'] :=
  ⟨rfl, rfl, rfl, rfl⟩

/-- Decoding a fully present frame is unchanged by appending trailing
bytes. -/
theorem c10_append_aux (f s : List Nat) (r : ParsedFrame)
    (hok : parse_arp_frame f = Except.ok r)
    (hlen : 14 + 8 + 2 * (6 + r.IP_ADDR_LEN) ≤ f.length) :
    parse_arp_frame (f ++ s) = Except.ok r := by
  have h20 : 20 ≤ f.length := by omega
  obtain ⟨b0, b1, b2, b3, b4, b5, b6, b7, b8, b9, b10, b11, b12, b13, b14,
    b15, b16, b17, b18, b19, rest, rfl⟩ := exists_head20 f h20
  simp only [List.length_cons] at hlen
  rw [parse_arp_frame_head] at hok
  simp only [List.cons_append]
  rw [parse_arp_frame_head]
  by_cases h1 : bytesToNat [b14, b15] ≠ 1
  · rw [if_pos h1] at hok
    exact Except.noConfusion hok
  · rw [if_neg h1] at hok
    rw [if_neg h1]
    by_cases h2 : b18 ≠ 6
    · rw [if_pos h2] at hok
      exact Except.noConfusion hok
    · rw [if_neg h2] at hok
      rw [if_neg h2]
      by_cases h3 : bytesToNat [b16, b17] = 0x0800
      · rw [if_pos h3] at hok
        rw [if_pos h3]
        by_cases h4 : b19 ≠ 4
        · rw [if_pos h4] at hok
          exact Except.noConfusion hok
        · rw [if_neg h4] at hok
          rw [if_neg h4]
          have hip : r.IP_ADDR_LEN = 4 := by rw [← Except.ok.inj hok]
          rw [hip] at hlen
          have hr : 22 ≤ rest.length := by omega
          rw [← hok]
          rw [List.take_append_of_le_length (show 2 ≤ rest.length by omega),
            slice_append_of_le rest s 2 12 (by omega),
            List.drop_append_of_le_length (show 2 ≤ rest.length by omega),
            slice_append_of_le (rest.drop 2) s 10 20
              (by rw [List.length_drop]; omega)]
      · rw [if_neg h3] at hok
        rw [if_neg h3]
        by_cases h5 : bytesToNat [b16, b17] = 0x86DD
        · rw [if_pos h5] at hok
          rw [if_pos h5]
          by_cases h6 : b19 ≠ 16
          · rw [if_pos h6] at hok
            exact Except.noConfusion hok
          · rw [if_neg h6] at hok
            rw [if_neg h6]
            have hip : r.IP_ADDR_LEN = 16 := by rw [← Except.ok.inj hok]
            rw [hip] at hlen
            have hr : 46 ≤ rest.length := by omega
            rw [← hok]
            rw [List.take_append_of_le_length (show 2 ≤ rest.length by omega),
              slice_append_of_le rest s 2 24 (by omega),
              List.drop_append_of_le_length (show 2 ≤ rest.length by omega),
              slice_append_of_le (rest.drop 2) s 22 44
                (by rw [List.length_drop]; omega)]
        · rw [if_neg h5] at hok
          exact Except.noConfusion hok

/-- C10 (amended with the full-frame length bound the counterexample
forces): if `parse_arp_frame` decodes `f` successfully and `f` contains
the whole frame (14 + 8 + 2·(6+N) bytes for its address width N), then
decoding `f ++ s` succeeds with exactly the same fields — trailing bytes
beyond the target block are ignored. Second conjunct: for frames with the
full 20-byte header present, decoding success depends only on the four
checked ARP header fields — in particular neither the ethertype bytes
(12–13) nor the operation bytes (20–21) affect whether decoding
succeeds. -/
theorem c10_trailing_bytes_ignored :
    (∀ (f s : List Nat) (r : ParsedFrame),
      parse_arp_frame f = Except.ok r →
      14 + 8 + 2 * (6 + r.IP_ADDR_LEN) ≤ f.length →
      parse_arp_frame (f ++ s) = Except.ok r) ∧
    (∀ (b0 b1 b2 b3 b4 b5 b6 b7 b8 b9 b10 b11 b12 b13
        b14 b15 b16 b17 b18 b19 : Nat) (rest : List Nat),
      parseSucceeds
          (b0 :: b1 :: b2 :: b3 :: b4 :: b5 :: b6 :: b7 :: b8 :: b9 :: b10 :: b11
            :: b12 :: b13 :: b14 :: b15 :: b16 :: b17 :: b18 :: b19 :: rest) = true ↔
        (bytesToNat [b14, b15] = 1 ∧ b18 = 6 ∧
          ((bytesToNat [b16, b17] = 0x0800 ∧ b19 = 4) ∨
            (bytesToNat [b16, b17] = 0x86DD ∧ b19 = 16)))) := by
  constructor
  · intro f s r hok hlen
    exact c10_append_aux f s r hok hlen
  · intro b0 b1 b2 b3 b4 b5 b6 b7 b8 b9 b10 b11 b12 b13 b14 b15 b16 b17 b18 b19 rest
    unfold parseSucceeds
    rw [parse_arp_frame_head]
    by_cases h1 : bytesToNat [b14, b15] = 1
    · by_cases h2 : b18 = 6
      · by_cases h3 : bytesToNat [b16, b17] = 0x0800
        · by_cases h4 : b19 = 4
          · simp [h1, h2, h3, h4]
          · simp [h1, h2, h3, h4]
        · by_cases h5 : bytesToNat [b16, b17] = 0x86DD
          · by_cases h6 : b19 = 16
            · simp [h1, h2, h3, h5, h6]
            · simp [h1, h2, h3, h5, h6]
          · simp [h1, h2, h3, h5]
      · simp [h1, h2]
    · simp [h1]

end Netkit

namespace Netkit

/-- C10 witness: the concrete 42-byte encoder output for MAC
02:00:00:00:00:01, IPs 10.0.0.1 and 10.0.0.2, with two trailing bytes
appended: decoding is unchanged. -/
theorem c10_trailing_bytes_ignored_witness :
    parse_arp_frame (transmit_arp_request_ipv4_frame
        ['0','2',':','0','0',':','0','0',':','0','0',':','0','0',':','0','1']
        ['1','0','.','0','.','0','.','1'] ['1','0','.','0','.','0','.','2']) =
      Except.ok {
        ETH_DEST_MAC := mac_bytes_to_str [255, 255, 255, 255, 255, 255]
        ETH_SRC_MAC := ['0','2',':','0','0',':','0','0',':','0','0',':','0','0',':','0','1']
        ETH_TYPE := 0x0806
        ARP_HTYPE := 1
        ARP_PTYPE := 0x0800
        ARP_HLEN := 6
        ARP_PLEN := 4
        ARP_OPER := 1
        IP_PRO_VER := 4
        IP_ADDR_LEN := 4
        ARP_SHA_MAC_ADDR := ['0','2',':','0','0',':','0','0',':','0','0',':','0','0',':','0','1']
        ARP_SPA_PRO_ADDR := ['1','0','.','0','.','0','.','1']
        ARP_THA_MAC_ADDR := mac_bytes_to_str [0, 0, 0, 0, 0, 0]
        ARP_TPA_PRO_ADDR := ['1','0','.','0','.','0','.','2'] } ∧
    14 + 8 + 2 * (6 + (4 : Nat)) ≤ (transmit_arp_request_ipv4_frame
        ['0','2',':','0','0',':','0','0',':','0','0',':','0','0',':','0','1']
        ['1','0','.','0','.','0','.','1'] ['1','0','.','0','.','0','.','2']).length ∧
    parse_arp_frame (transmit_arp_request_ipv4_frame
        ['0','2',':','0','0',':','0','0',':','0','0',':','0','0',':','0','1']
        ['1','0','.','0','.','0','.','1'] ['1','0','.','0','.','0','.','2'] ++ [7, 7]) =
      Except.ok {
        ETH_DEST_MAC := mac_bytes_to_str [255, 255, 255, 255, 255, 255]
        ETH_SRC_MAC := ['0','2',':','0','0',':','0','0',':','0','0',':','0','0',':','0','1']
        ETH_TYPE := 0x0806
        ARP_HTYPE := 1
        ARP_PTYPE := 0x0800
        ARP_HLEN := 6
        ARP_PLEN := 4
        ARP_OPER := 1
        IP_PRO_VER := 4
        IP_ADDR_LEN := 4
        ARP_SHA_MAC_ADDR := ['0','2',':','0','0',':','0','0',':','0','0',':','0','0',':','0','1']
        ARP_SPA_PRO_ADDR := ['1','0','.','0','.','0','.','1']
        ARP_THA_MAC_ADDR := mac_bytes_to_str [0, 0, 0, 0, 0, 0]
        ARP_TPA_PRO_ADDR := ['1','0','.','0','.','0','.','2'] } :=
  ⟨by rfl, by decide,
    c10_trailing_bytes_ignored.1
      (transmit_arp_request_ipv4_frame
        ['0','2',':','0','0',':','0','0',':','0','0',':','0','0',':','0','1']
        ['1','0','.','0','.','0','.','1'] ['1','0','.','0','.','0','.','2'])
      [7, 7] _ (by rfl) (by decide)⟩

end Netkit

namespace Netkit

/-! ## Lemmas: the monitor's host map -/

theorem lookupHost_setHost (m : SeenMap) (k key : List Char) (v : HostObs) :
    lookupHost (setHost m k v) key = if k = key then some v else lookupHost m key := by
  induction m with
  | nil => rfl
  | cons p m ih =>
    obtain ⟨k2, w⟩ := p
    by_cases h2 : k2 = k
    · subst h2
      simp only [setHost, if_pos rfl, lookupHost]
      by_cases hk : k2 = key
      · simp [lookupHost, hk]
      · simp [lookupHost, hk]
    · simp only [setHost, if_neg h2, lookupHost]
      by_cases hk : k2 = key
      · subst hk
        have hne : ¬k = k2 := fun he => h2 he.symm
        simp [lookupHost, hne]
      · simp [lookupHost, hk, ih]

theorem mem_of_lookupHost (m : SeenMap) (key : List Char) (h : HostObs)
    (hl : lookupHost m key = some h) : (key, h) ∈ m := by
  induction m with
  | nil => simp [lookupHost] at hl
  | cons p m ih =>
    obtain ⟨k2, w⟩ := p
    by_cases hk : k2 = key
    · subst hk
      simp only [lookupHost, if_pos rfl] at hl
      simp [Option.some.inj hl]
    · simp only [lookupHost, if_neg hk] at hl
      exact List.mem_cons_of_mem _ (ih hl)

theorem mem_setHost (m : SeenMap) (k : List Char) (v : HostObs)
    (p : List Char × HostObs) (hp : p ∈ setHost m k v) :
    p = (k, v) ∨ p ∈ m := by
  induction m with
  | nil => simp [setHost] at hp; simp [hp]
  | cons q m ih =>
    obtain ⟨k2, w⟩ := q
    by_cases h2 : k2 = k
    · subst h2
      simp only [setHost, if_pos rfl] at hp
      rcases List.mem_cons.mp hp with h | h
      · exact Or.inl h
      · exact Or.inr (List.mem_cons_of_mem _ h)
    · simp only [setHost, if_neg h2] at hp
      rcases List.mem_cons.mp hp with h | h
      · exact Or.inr (by simp [h])
      · rcases ih h with h3 | h3
        · exact Or.inl h3
        · exact Or.inr (List.mem_cons_of_mem _ h3)

end Netkit


namespace Netkit

/-! ## Lemmas: monitor step and run behaviour -/

theorem monitorStep_not_reply (m : SeenMap) (fr : List Nat) (now : Nat)
    (r : ParsedFrame) (hok : parse_arp_frame fr = Except.ok r)
    (h2 : r.ARP_OPER ≠ 2) : monitorStep m fr now = Except.ok m := by
  by_cases h1 : r.ARP_OPER = 1
  · simp [monitorStep, hok, h1]
  · simp [monitorStep, hok, h1, h2]

theorem monitorStep_reply_known (m : SeenMap) (fr : List Nat) (now : Nat)
    (r : ParsedFrame) (h0 : HostObs) (hok : parse_arp_frame fr = Except.ok r)
    (h2 : r.ARP_OPER = 2) (hl : lookupHost m r.ARP_SPA_PRO_ADDR = some h0) :
    monitorStep m fr now = Except.ok (setHost m r.ARP_SPA_PRO_ADDR
      { mac := r.ARP_SHA_MAC_ADDR, count := h0.count + 1, last_seen := now }) := by
  simp [monitorStep, hok, h2, hl]

theorem monitorStep_reply_new (m : SeenMap) (fr : List Nat) (now : Nat)
    (r : ParsedFrame) (hok : parse_arp_frame fr = Except.ok r)
    (h2 : r.ARP_OPER = 2) (hl : lookupHost m r.ARP_SPA_PRO_ADDR = none) :
    monitorStep m fr now = Except.ok (setHost m r.ARP_SPA_PRO_ADDR
      { mac := r.ARP_SHA_MAC_ADDR, count := 1, last_seen := now }) := by
  simp [monitorStep, hok, h2, hl]

theorem monitorStep_preserves (m m1 : SeenMap) (fr : List Nat) (t0 now : Nat)
    (hinv : ∀ p ∈ m, (p : List Char × HostObs).2.last_seen ≤ t0)
    (hle : t0 ≤ now) (hstep : monitorStep m fr now = Except.ok m1)
    (P : List Char) (h0 : HostObs) (hP : lookupHost m P = some h0) :
    ∃ h1, lookupHost m1 P = some h1 ∧ h0.last_seen ≤ h1.last_seen ∧
      h0.count ≤ h1.count := by
  cases hp : parse_arp_frame fr with
  | error e =>
    by_cases hv : e.isValueError
    · simp [monitorStep, hp, hv] at hstep
      subst hstep
      exact ⟨h0, hP, le_rfl, le_rfl⟩
    · simp [monitorStep, hp, hv] at hstep
  | ok r =>
    by_cases h2 : r.ARP_OPER = 2
    · cases hl0 : lookupHost m r.ARP_SPA_PRO_ADDR with
      | some prev =>
        simp [monitorStep, hp, h2, hl0] at hstep
        by_cases hsp : r.ARP_SPA_PRO_ADDR = P
        · subst hsp
          have hprev : prev = h0 := Option.some.inj (hl0.symm.trans hP)
          subst hprev
          refine ⟨HostObs.mk r.ARP_SHA_MAC_ADDR (prev.count + 1) now, ?_, ?_, ?_⟩
          · rw [← hstep, lookupHost_setHost, if_pos rfl]
          · exact le_trans (hinv _ (mem_of_lookupHost m _ _ hP)) hle
          · exact Nat.le_succ _
        · refine ⟨h0, ?_, le_rfl, le_rfl⟩
          rw [← hstep, lookupHost_setHost, if_neg hsp]
          exact hP
      | none =>
        simp [monitorStep, hp, h2, hl0] at hstep
        by_cases hsp : r.ARP_SPA_PRO_ADDR = P
        · subst hsp
          rw [hl0] at hP
          exact Option.noConfusion hP
        · refine ⟨h0, ?_, le_rfl, le_rfl⟩
          rw [← hstep, lookupHost_setHost, if_neg hsp]
          exact hP
    · have hstep2 : monitorStep m fr now = Except.ok m :=
        monitorStep_not_reply m fr now r hp h2
      rw [hstep2] at hstep
      have hm := Except.ok.inj hstep
      subst hm
      exact ⟨h0, hP, le_rfl, le_rfl⟩

theorem monitorStep_inv (m m1 : SeenMap) (fr : List Nat) (t0 now : Nat)
    (hinv : ∀ p ∈ m, (p : List Char × HostObs).2.last_seen ≤ t0)
    (hle : t0 ≤ now) (hstep : monitorStep m fr now = Except.ok m1) :
    ∀ p ∈ m1, (p : List Char × HostObs).2.last_seen ≤ now := by
  cases hp : parse_arp_frame fr with
  | error e =>
    by_cases hv : e.isValueError
    · simp [monitorStep, hp, hv] at hstep
      subst hstep
      exact fun p hp2 => le_trans (hinv p hp2) hle
    · simp [monitorStep, hp, hv] at hstep
  | ok r =>
    by_cases h2 : r.ARP_OPER = 2
    · cases hl0 : lookupHost m r.ARP_SPA_PRO_ADDR with
      | some prev =>
        simp [monitorStep, hp, h2, hl0] at hstep
        intro p hp2
        rw [← hstep] at hp2
        rcases mem_setHost _ _ _ _ hp2 with h | h
        · rw [h]
        · exact le_trans (hinv p h) hle
      | none =>
        simp [monitorStep, hp, h2, hl0] at hstep
        intro p hp2
        rw [← hstep] at hp2
        rcases mem_setHost _ _ _ _ hp2 with h | h
        · rw [h]
        · exact le_trans (hinv p h) hle
    · have hstep2 : monitorStep m fr now = Except.ok m :=
        monitorStep_not_reply m fr now r hp h2
      rw [hstep2] at hstep
      have hm := Except.ok.inj hstep
      subst hm
      exact fun p hp2 => le_trans (hinv p hp2) hle

end Netkit

namespace Netkit

/-- Across a monitor run whose receive timestamps are nondecreasing (and
at least the timestamps already in the map), an existing entry's
`last_seen` never decreases and its `count` never decreases. -/
theorem monitorRun_stamps (evs : List (List Nat × Nat)) :
    ∀ (m0 : SeenMap) (t0 : Nat) (m : SeenMap),
      (∀ p ∈ m0, (p : List Char × HostObs).2.last_seen ≤ t0) →
      List.Chain (fun a b => a ≤ b) t0 (evs.map Prod.snd) →
      monitorRun m0 evs = Except.ok m →
      ∀ (P : List Char) (h0 : HostObs), lookupHost m0 P = some h0 →
        ∃ h1, lookupHost m P = some h1 ∧ h0.last_seen ≤ h1.last_seen ∧
          h0.count ≤ h1.count := by
  induction evs with
  | nil =>
    intro m0 t0 m hinv hchain hrun P h0 hP
    have hm := Except.ok.inj hrun
    subst hm
    exact ⟨h0, hP, le_rfl, le_rfl⟩
  | cons ev evs ih =>
    obtain ⟨fr, t⟩ := ev
    intro m0 t0 m hinv hchain hrun P h0 hP
    simp only [List.map_cons] at hchain
    obtain ⟨hle, hchain2⟩ := List.chain_cons.mp hchain
    cases hstep : monitorStep m0 fr t with
    | error e =>
      simp only [monitorRun, hstep] at hrun
      exact Except.noConfusion hrun
    | ok m1 =>
      simp only [monitorRun, hstep] at hrun
      obtain ⟨h1, hl1, hle1, hc1⟩ :=
        monitorStep_preserves m0 m1 fr t0 t hinv hle hstep P h0 hP
      have hinv1 := monitorStep_inv m0 m1 fr t0 t hinv hle hstep
      obtain ⟨h2, hl2, hle2, hc2⟩ := ih m1 t m hinv1 hchain2 hrun P h1 hl1
      exact ⟨h2, hl2, le_trans hle1 hle2, le_trans hc1 hc2⟩

/-- An entry appears in the monitor's map only if some processed frame
decoded successfully as a reply (operation 2) with that sender protocol
address. -/
theorem monitorRun_mem_source (evs : List (List Nat × Nat)) :
    ∀ (m0 m : SeenMap) (P : List Char) (h : HostObs),
      monitorRun m0 evs = Except.ok m → lookupHost m0 P = none →
      lookupHost m P = some h →
      ∃ fr t r, (fr, t) ∈ evs ∧ parse_arp_frame fr = Except.ok r ∧
        r.ARP_OPER = 2 ∧ r.ARP_SPA_PRO_ADDR = P := by
  induction evs with
  | nil =>
    intro m0 m P h hrun h0 hP
    have hm := Except.ok.inj hrun
    subst hm
    rw [h0] at hP
    exact Option.noConfusion hP
  | cons ev evs ih =>
    obtain ⟨fr, t⟩ := ev
    intro m0 m P h hrun h0 hP
    cases hstep : monitorStep m0 fr t with
    | error e =>
      simp only [monitorRun, hstep] at hrun
      exact Except.noConfusion hrun
    | ok m1 =>
      simp only [monitorRun, hstep] at hrun
      cases hl1 : lookupHost m1 P with
      | none =>
        obtain ⟨fr2, t2, r, hmem, hparse, hop, hspa⟩ :=
          ih m1 m P h hrun hl1 hP
        exact ⟨fr2, t2, r, List.mem_cons_of_mem _ hmem, hparse, hop, hspa⟩
      | some h1 =>
        cases hp : parse_arp_frame fr with
        | error e =>
          by_cases hv : e.isValueError
          · simp [monitorStep, hp, hv] at hstep
            subst hstep
            rw [h0] at hl1
            exact Option.noConfusion hl1
          · simp [monitorStep, hp, hv] at hstep
        | ok r =>
          by_cases h2 : r.ARP_OPER = 2
          · by_cases hsp : r.ARP_SPA_PRO_ADDR = P
            · exact ⟨fr, t, r, List.mem_cons_self _ _, hp, h2, hsp⟩
            · cases hl0 : lookupHost m0 r.ARP_SPA_PRO_ADDR with
              | some prev =>
                simp [monitorStep, hp, h2, hl0] at hstep
                rw [← hstep, lookupHost_setHost, if_neg hsp, h0] at hl1
                exact Option.noConfusion hl1
              | none =>
                simp [monitorStep, hp, h2, hl0] at hstep
                rw [← hstep, lookupHost_setHost, if_neg hsp, h0] at hl1
                exact Option.noConfusion hl1
          · have hstep2 : monitorStep m0 fr t = Except.ok m0 :=
              monitorStep_not_reply m0 fr t r hp h2
            rw [hstep2] at hstep
            have hm := Except.ok.inj hstep
            subst hm
            rw [h0] at hl1
            exact Option.noConfusion hl1

end Netkit

namespace Netkit

/-- First concrete ARP reply frame for the monitor scenario: sender
protocol address 10.0.0.5, sender hardware address aa:00:00:00:00:01. -/
def c7frame1 : List Nat :=
  [1, 2, 3, 4, 5, 6] ++ [7, 8, 9, 10, 11, 12] ++ [8, 6]
    ++ [0, 1, 8, 0, 6, 4, 0, 2]
    ++ [170, 0, 0, 0, 0, 1] ++ [10, 0, 0, 5] ++ [0, 0, 0, 0, 0, 0] ++ [10, 0, 0, 9]

/-- Second concrete ARP reply frame from the same sender protocol address
10.0.0.5, now with hardware address bb:00:00:00:00:02. -/
def c7frame2 : List Nat :=
  [1, 2, 3, 4, 5, 6] ++ [7, 8, 9, 10, 11, 12] ++ [8, 6]
    ++ [0, 1, 8, 0, 6, 4, 0, 2]
    ++ [187, 0, 0, 0, 0, 2] ++ [10, 0, 0, 5] ++ [0, 0, 0, 0, 0, 0] ++ [10, 0, 0, 9]

/-- The shared sender protocol address string of the scenario frames. -/
def c7spa : List Char := ['1', '0', '.', '0', '.', '0', '.', '5']

/-- The first scenario frame's sender hardware address string. -/
def c7mac1 : List Char :=
  ['a', 'a', ':', '0', '0', ':', '0', '0', ':', '0', '0', ':', '0', '0', ':', '0', '1']

/-- The second scenario frame's sender hardware address string. -/
def c7mac2 : List Char :=
  ['b', 'b', ':', '0', '0', ':', '0', '0', ':', '0', '0', ':', '0', '0', ':', '0', '2']

/-- C7: the HostObservation map (`seen_hosts`) contains an entry for a
protocol address only if a successfully decoded operation-2 frame with
that sender protocol address was processed; a further reply for a known
address replaces the entry with count+1, the latest sender hardware
address, and the current receive time; frames decoding to any other
operation leave the map unchanged; with nondecreasing receive times an
entry's timestamp and count never decrease over a run; and two replies
from the same sender protocol address produce one entry with count 2. -/
theorem c7_monitor_host_observations :
    (∀ (evs : List (List Nat × Nat)) (m : SeenMap) (P : List Char) (h : HostObs),
      monitorRun [] evs = Except.ok m → lookupHost m P = some h →
      ∃ fr t r, (fr, t) ∈ evs ∧ parse_arp_frame fr = Except.ok r ∧
        r.ARP_OPER = 2 ∧ r.ARP_SPA_PRO_ADDR = P) ∧
    (∀ (m : SeenMap) (fr : List Nat) (now : Nat) (r : ParsedFrame) (h0 : HostObs),
      parse_arp_frame fr = Except.ok r → r.ARP_OPER = 2 →
      lookupHost m r.ARP_SPA_PRO_ADDR = some h0 →
      monitorStep m fr now = Except.ok (setHost m r.ARP_SPA_PRO_ADDR
        (HostObs.mk r.ARP_SHA_MAC_ADDR (h0.count + 1) now)) ∧
      lookupHost (setHost m r.ARP_SPA_PRO_ADDR
          (HostObs.mk r.ARP_SHA_MAC_ADDR (h0.count + 1) now)) r.ARP_SPA_PRO_ADDR =
        some (HostObs.mk r.ARP_SHA_MAC_ADDR (h0.count + 1) now)) ∧
    (∀ (m : SeenMap) (fr : List Nat) (now : Nat) (r : ParsedFrame),
      parse_arp_frame fr = Except.ok r → r.ARP_OPER ≠ 2 →
      monitorStep m fr now = Except.ok m) ∧
    (∀ (evs : List (List Nat × Nat)) (m0 : SeenMap) (t0 : Nat) (m : SeenMap),
      (∀ p ∈ m0, (p : List Char × HostObs).2.last_seen ≤ t0) →
      List.Chain (fun a b => a ≤ b) t0 (evs.map Prod.snd) →
      monitorRun m0 evs = Except.ok m →
      ∀ (P : List Char) (h0 : HostObs), lookupHost m0 P = some h0 →
        ∃ h1, lookupHost m P = some h1 ∧ h0.last_seen ≤ h1.last_seen ∧
          h0.count ≤ h1.count) ∧
    monitorRun [] [(c7frame1, 5), (c7frame2, 9)] =
      Except.ok [(c7spa, HostObs.mk c7mac2 2 9)] := by
  refine ⟨?_, ?_, ?_, ?_, ?_⟩
  · intro evs m P h hrun hP
    exact monitorRun_mem_source evs [] m P h hrun rfl hP
  · intro m fr now r h0 hok h2 hl
    refine ⟨monitorStep_reply_known m fr now r h0 hok h2 hl, ?_⟩
    rw [lookupHost_setHost, if_pos rfl]
  · intro m fr now r hok h2
    exact monitorStep_not_reply m fr now r hok h2
  · intro evs m0 t0 m hinv hchain hrun P h0 hP
    exact monitorRun_stamps evs m0 t0 m hinv hchain hrun P h0 hP
  · rfl

/-- C7 witness: the second scenario reply applied to a map already holding
10.0.0.5 with count 1 yields the upserted entry with count 2, the new
hardware address, and the new timestamp. -/
theorem c7_monitor_host_observations_witness :
    parse_arp_frame c7frame2 = Except.ok {
      ETH_DEST_MAC := ['0','1',':','0','2',':','0','3',':','0','4',':','0','5',':','0','6']
      ETH_SRC_MAC := ['0','7',':','0','8',':','0','9',':','0','a',':','0','b',':','0','c']
      ETH_TYPE := 0x0806
      ARP_HTYPE := 1
      ARP_PTYPE := 0x0800
      ARP_HLEN := 6
      ARP_PLEN := 4
      ARP_OPER := 2
      IP_PRO_VER := 4
      IP_ADDR_LEN := 4
      ARP_SHA_MAC_ADDR := c7mac2
      ARP_SPA_PRO_ADDR := c7spa
      ARP_THA_MAC_ADDR := ['0','0',':','0','0',':','0','0',':','0','0',':','0','0',':','0','0']
      ARP_TPA_PRO_ADDR := ['1','0','.','0','.','0','.','9'] } ∧
    monitorStep [(c7spa, HostObs.mk c7mac1 1 5)] c7frame2 9 =
      Except.ok (setHost [(c7spa, HostObs.mk c7mac1 1 5)] c7spa
        (HostObs.mk c7mac2 (1 + 1) 9)) ∧
    lookupHost (setHost [(c7spa, HostObs.mk c7mac1 1 5)] c7spa
        (HostObs.mk c7mac2 (1 + 1) 9)) c7spa =
      some (HostObs.mk c7mac2 (1 + 1) 9) :=
  ⟨by rfl,
    (c7_monitor_host_observations.2.1 [(c7spa, HostObs.mk c7mac1 1 5)]
      c7frame2 9 _ (HostObs.mk c7mac1 1 5) (by rfl) (by rfl) (by rfl)).1,
    (c7_monitor_host_observations.2.1 [(c7spa, HostObs.mk c7mac1 1 5)]
      c7frame2 9 _ (HostObs.mk c7mac1 1 5) (by rfl) (by rfl) (by rfl)).2⟩

end Netkit

namespace Netkit

/-- C8: the listener appends the pair (sender protocol address, sender
hardware address) exactly for frames that decode successfully with
operation 2 and Ethernet destination equal to the prober's transmitting
MAC; every other frame leaves the result sequence unchanged, and accepted
duplicates are appended again (append, no deduplication). -/
theorem c8_listener_filter :
    (∀ (tm : List Char) (rs : List (List Char × List Char)) (f : List Nat)
        (r : ParsedFrame),
      parse_arp_frame f = Except.ok r → r.ARP_OPER = 2 → r.ETH_DEST_MAC = tm →
      respAfter tm rs f = rs ++ [(r.ARP_SPA_PRO_ADDR, r.ARP_SHA_MAC_ADDR)]) ∧
    (∀ (tm : List Char) (rs : List (List Char × List Char)) (f : List Nat),
      respAfter tm rs f ≠ rs →
      ∃ r, parse_arp_frame f = Except.ok r ∧ r.ARP_OPER = 2 ∧
        r.ETH_DEST_MAC = tm ∧
        respAfter tm rs f = rs ++ [(r.ARP_SPA_PRO_ADDR, r.ARP_SHA_MAC_ADDR)]) := by
  constructor
  · intro tm rs f r hok h2 hdest
    simp [respAfter, listenStep, hok, h2, hdest]
  · intro tm rs f hne
    cases hp : parse_arp_frame f with
    | error e =>
      by_cases hv : e.isValueError
      · simp [respAfter, listenStep, hp, hv] at hne
      · simp [respAfter, listenStep, hp, hv] at hne
    | ok r =>
      by_cases h2 : r.ARP_OPER = 2
      · by_cases hd : r.ETH_DEST_MAC = tm
        · exact ⟨r, rfl, h2, hd, by simp [respAfter, listenStep, hp, h2, hd]⟩
        · simp [respAfter, listenStep, hp, h2, hd] at hne
      · simp [respAfter, listenStep, hp, h2] at hne

/-- C8 witness: the second scenario reply frame, listened for with the
matching transmitting MAC 01:02:03:04:05:06 and a one-element result
list already holding the same pair: the pair is appended again. -/
theorem c8_listener_filter_witness :
    parse_arp_frame c7frame2 = Except.ok {
      ETH_DEST_MAC := ['0','1',':','0','2',':','0','3',':','0','4',':','0','5',':','0','6']
      ETH_SRC_MAC := ['0','7',':','0','8',':','0','9',':','0','a',':','0','b',':','0','c']
      ETH_TYPE := 0x0806
      ARP_HTYPE := 1
      ARP_PTYPE := 0x0800
      ARP_HLEN := 6
      ARP_PLEN := 4
      ARP_OPER := 2
      IP_PRO_VER := 4
      IP_ADDR_LEN := 4
      ARP_SHA_MAC_ADDR := c7mac2
      ARP_SPA_PRO_ADDR := c7spa
      ARP_THA_MAC_ADDR := ['0','0',':','0','0',':','0','0',':','0','0',':','0','0',':','0','0']
      ARP_TPA_PRO_ADDR := ['1','0','.','0','.','0','.','9'] } ∧
    respAfter ['0','1',':','0','2',':','0','3',':','0','4',':','0','5',':','0','6']
        [(c7spa, c7mac2)] c7frame2 =
      [(c7spa, c7mac2)] ++ [(c7spa, c7mac2)] :=
  ⟨by rfl,
    c8_listener_filter.1
      ['0','1',':','0','2',':','0','3',':','0','4',':','0','5',':','0','6']
      [(c7spa, c7mac2)] c7frame2 _ (by rfl) (by rfl) (by rfl)⟩

end Netkit
